import Mathlib

/-!
# Verification of the Twilio–Gemini voice relay (`src/main.py`)

Shallow embedding of the relay's pure data transformations and of its two
pump loops, with theorems settling the frozen claims about the program.

Bytes are modelled as `Nat` values `< 256`; the base64 wire text as
`List Char`.
-/

namespace VoiceRelay

/-! ## Base64 codec

`main.py` calls `base64.b64decode(data['media']['payload'])` on inbound media
(line 128) and `base64.b64encode(response.audio).decode('utf-8')` on outbound
audio (line 145). The functions below model Python's `base64.b64encode` /
`base64.b64decode` (standard alphabet, `=` padding). `b64decode` returns
`none` where Python raises `binascii.Error` (length not a multiple of four,
padding not terminal, or a non-alphabet character; Python's default mode first
discards foreign characters — the inputs reaching this program's decode are
alphabet-only, where both agree). Like Python, the decoder discards the
unused low bits of a final partial group. -/

/-- The standard base64 alphabet, index 0–63, as in Python's `base64` module. -/
def b64Alphabet : List Char :=
  ['A', 'B', 'C', 'D', 'E', 'F', 'G', 'H', 'I', 'J', 'K', 'L', 'M',
   'N', 'O', 'P', 'Q', 'R', 'S', 'T', 'U', 'V', 'W', 'X', 'Y', 'Z',
   'a', 'b', 'c', 'd', 'e', 'f', 'g', 'h', 'i', 'j', 'k', 'l', 'm',
   'n', 'o', 'p', 'q', 'r', 's', 't', 'u', 'v', 'w', 'x', 'y', 'z',
   '0', '1', '2', '3', '4', '5', '6', '7', '8', '9', '+', '/']

/-- Character for a 6-bit value. -/
def b64Char (n : Nat) : Char := b64Alphabet.getD n 'A'

/-- 6-bit value of an alphabet character; `none` for a character outside the
alphabet (in particular for the padding character). -/
def b64Index (c : Char) : Option Nat := List.findIdx? (fun d => d == c) b64Alphabet

/-- Model of Python `base64.b64encode` on a byte sequence: three bytes become
four alphabet characters; a trailing group of one or two bytes is padded
with `=`. -/
def b64encode : List Nat → List Char
  | [] => []
  | [a] => [b64Char (a / 4), b64Char (a % 4 * 16), '=', '=']
  | [a, b] => [b64Char (a / 4), b64Char (a % 4 * 16 + b / 16), b64Char (b % 16 * 4), '=']
  | a :: b :: c :: rest =>
      b64Char (a / 4) :: b64Char (a % 4 * 16 + b / 16) ::
      b64Char (b % 16 * 4 + c / 64) :: b64Char (c % 64) :: b64encode rest

/-- Model of Python `base64.b64decode` on alphabet-only input: consumes four
characters per group; the final group may carry one or two `=` padders, whose
surplus low bits are discarded exactly as Python discards them. -/
def b64decode : List Char → Option (List Nat)
  | [] => some []
  | c1 :: c2 :: c3 :: c4 :: rest =>
      match b64Index c1, b64Index c2 with
      | some v1, some v2 =>
          if c3 = '=' then
            if c4 = '=' ∧ rest = [] then some [v1 * 4 + v2 / 16] else none
          else
            match b64Index c3 with
            | some v3 =>
                if c4 = '=' then
                  if rest = [] then some [v1 * 4 + v2 / 16, v2 % 16 * 16 + v3 / 4] else none
                else
                  match b64Index c4 with
                  | some v4 =>
                      match b64decode rest with
                      | some bs =>
                          some ((v1 * 4 + v2 / 16) :: (v2 % 16 * 16 + v3 / 4) ::
                                (v3 % 4 * 64 + v4) :: bs)
                      | none => none
                  | none => none
            | none => none
      | _, _ => none
  | _ => none

/-- Looking up the character of a 6-bit value recovers the value. -/
theorem b64Index_b64Char : ∀ n, n < 64 → b64Index (b64Char n) = some n := by decide

/-- Alphabet characters are never the padding character. -/
theorem b64Char_ne_pad : ∀ n, n < 64 → b64Char n ≠ '=' := by decide

/-- Decoding an encoded byte sequence recovers the bytes. -/
theorem b64_decode_encode : ∀ p : List Nat, (∀ x ∈ p, x < 256) →
    b64decode (b64encode p) = some p
  | [], _ => by simp [b64encode, b64decode]
  | [a], h => by
      have ha : a < 256 := h a (by simp)
      have h1 : b64Index (b64Char (a / 4)) = some (a / 4) :=
        b64Index_b64Char _ (by omega)
      have h2 : b64Index (b64Char (a % 4 * 16)) = some (a % 4 * 16) :=
        b64Index_b64Char _ (by omega)
      simp only [b64encode, b64decode, h1, h2, and_self, if_true]
      simp only [Option.some.injEq, List.cons.injEq, and_true]
      omega
  | [a, b], h => by
      have ha : a < 256 := h a (by simp)
      have hb : b < 256 := h b (by simp)
      have h1 : b64Index (b64Char (a / 4)) = some (a / 4) :=
        b64Index_b64Char _ (by omega)
      have h2 : b64Index (b64Char (a % 4 * 16 + b / 16)) = some (a % 4 * 16 + b / 16) :=
        b64Index_b64Char _ (by omega)
      have h3 : b64Index (b64Char (b % 16 * 4)) = some (b % 16 * 4) :=
        b64Index_b64Char _ (by omega)
      have hne : b64Char (b % 16 * 4) ≠ '=' := b64Char_ne_pad _ (by omega)
      simp only [b64encode, b64decode, h1, h2, h3, if_neg hne, if_true]
      simp only [Option.some.injEq, List.cons.injEq, and_true]
      constructor
      · omega
      · omega
  | a :: b :: c :: rest, h => by
      have ha : a < 256 := h a (by simp)
      have hb : b < 256 := h b (by simp)
      have hc : c < 256 := h c (by simp)
      have ih : b64decode (b64encode rest) = some rest :=
        b64_decode_encode rest (fun x hx => h x (by simp [hx]))
      have h1 : b64Index (b64Char (a / 4)) = some (a / 4) :=
        b64Index_b64Char _ (by omega)
      have h2 : b64Index (b64Char (a % 4 * 16 + b / 16)) = some (a % 4 * 16 + b / 16) :=
        b64Index_b64Char _ (by omega)
      have h3 : b64Index (b64Char (b % 16 * 4 + c / 64)) = some (b % 16 * 4 + c / 64) :=
        b64Index_b64Char _ (by omega)
      have h4 : b64Index (b64Char (c % 64)) = some (c % 64) :=
        b64Index_b64Char _ (by omega)
      have hne3 : b64Char (b % 16 * 4 + c / 64) ≠ '=' := b64Char_ne_pad _ (by omega)
      have hne4 : b64Char (c % 64) ≠ '=' := b64Char_ne_pad _ (by omega)
      simp only [b64encode, b64decode, h1, h2, h3, h4, if_neg hne3, if_neg hne4, ih]
      simp only [Option.some.injEq, List.cons.injEq, and_true]
      refine ⟨by omega, by omega, by omega⟩

/-! ## Inbound pump: `receive_from_twilio` (`main.py` lines 113–137)

One parsed inbound Twilio frame. The Python loop reads a text frame, runs
`json.loads`, and dispatches on `data.get('event')`:
- `start` reads `data['start']['callSid']` and `data['start']['streamSid']`;
- `media` base64-decodes `data['media']['payload']` and sends it to Gemini;
- `stop` breaks out of the loop;
- any other (or absent) `event` value matches no branch and is skipped.
`malformed` stands for a frame on which `json.loads` raises, or one whose
declared kind lacks its required fields so the subscription raises `KeyError`;
either exception escapes the loop into the `except` clause. A `media` frame
whose payload is not valid base64 raises the same way, which the embedding
reaches through `b64decode` returning `none`. -/
inductive InMsg where
  | start (callSid streamSid : String)
  | media (payload : List Char)
  | stop
  | other
  | malformed
deriving DecidableEq

/-- Observable outcome of one run of the inbound pump: the payloads passed to
`session.send` in order, the final `call_sid` / `stream_sid` nonlocals, and
whether the `except Exception` handler at line 136 logged an error. The pump
function always returns (every exception inside it is caught), so the outcome
is a plain value, not an `Except`. -/
structure InboundResult where
  sends : List (List Nat)
  call_sid : Option String
  stream_sid : Option String
  errorLogged : Bool
deriving DecidableEq

/-- Model of `receive_from_twilio`: folds the frame sequence, threading the
`call_sid` / `stream_sid` nonlocals (both `None` at line 110–111 until a
`start` frame). A decode failure or malformed frame ends the loop through the
`except` clause — the frames after it are never read. -/
def receive_from_twilio : Option String → Option String → List InMsg → InboundResult
  | cs, ss, [] => ⟨[], cs, ss, false⟩
  | _, ss, .start c s :: rest => receive_from_twilio (some c) (some s) rest
  | cs, ss, .media p :: rest =>
      match b64decode p with
      | some bytes =>
          let r := receive_from_twilio cs ss rest
          ⟨bytes :: r.sends, r.call_sid, r.stream_sid, r.errorLogged⟩
      | none => ⟨[], cs, ss, true⟩
  | cs, ss, .stop :: _ => ⟨[], cs, ss, false⟩
  | cs, ss, .other :: rest => receive_from_twilio cs ss rest
  | cs, ss, .malformed :: _ => ⟨[], cs, ss, true⟩

/-- Decode a sequence of media payloads; `some` exactly when every payload is
valid base64. Used to state order-preservation of the inbound pump. -/
def decodeAll : List (List Char) → Option (List (List Nat))
  | [] => some []
  | p :: ps =>
      match b64decode p, decodeAll ps with
      | some b, some bs => some (b :: bs)
      | _, _ => none

/-! ## Outbound pump: `send_to_twilio` (`main.py` lines 139–162) and
`initiate_transfer` (lines 62–77) -/

/-- One entry of `response.tool_call.function_calls`: a name and the `args`
mapping (string keys to string values, as the relay only reads `reason`). -/
structure FunctionCall where
  name : String
  args : List (String × String)
deriving DecidableEq

/-- One Gemini server event as the loop at line 142 sees it: `response.audio`
(raw bytes or absent) and `response.tool_call` (a list of function calls, or
absent). -/
structure GeminiResponse where
  audio : Option (List Nat)
  tool_call : Option (List FunctionCall)
deriving DecidableEq

/-- Python `dict.get(key, default)` on the `args` mapping. -/
def argGet (args : List (String × String)) (key dflt : String) : String :=
  match args.find? (fun kv => kv.1 == key) with
  | some kv => kv.2
  | none => dflt

/-- The first function call named `transfer_to_human` in `tool_call`, if any:
the loop at line 154 skips non-matching names and returns on the first match. -/
def findTransferCall (tc : Option (List FunctionCall)) : Option FunctionCall :=
  match tc with
  | none => none
  | some fcs => fcs.find? (fun c => c.name == "transfer_to_human")

/-- One observable action of the outbound pump, in program order:
`sendMedia ss p` is the `websocket.send_json` of a `media` message whose
`streamSid` field is `ss` (`none` models JSON `null`) and whose payload is
`p`; `transferCall cs r` is the call `initiate_transfer(cs, r)`;
`closeWs` is `websocket.close()`. -/
inductive OutEvent where
  | sendMedia (streamSid : Option String) (payload : List Char)
  | transferCall (callSid : Option String) (reason : String)
  | closeWs
deriving DecidableEq

/-- Actions of the audio branch (lines 144–150) for one response: the encoded
payload is sent with whatever `stream_sid` currently holds — there is no
guard on it. -/
def audioActions (ss : Option String) (r : GeminiResponse) : List OutEvent :=
  match r.audio with
  | some bytes => [.sendMedia ss (b64encode bytes)]
  | none => []

/-- Model of `send_to_twilio`: the trace of actions produced on a sequence of
Gemini responses, given the current `call_sid` / `stream_sid`. Audio is
handled first in each iteration; a `transfer_to_human` function call then
triggers the transfer, the close, and the `return` that ends the loop. -/
def send_to_twilio (cs ss : Option String) : List GeminiResponse → List OutEvent
  | [] => []
  | r :: rest =>
      match findTransferCall r.tool_call with
      | some fc =>
          audioActions ss r ++
            [.transferCall cs (argGet fc.args "reason" "user_request"), .closeWs]
      | none => audioActions ss r ++ send_to_twilio cs ss rest

/-- A Python exception raised by the Twilio REST call inside
`initiate_transfer`: `TwilioRestException` or any other `Exception`. -/
inductive PyExc where
  | twilioRest (msg : String)
  | otherExc (msg : String)
deriving DecidableEq

/-- Observable outcome of `initiate_transfer`: whether the
`twilio_client.calls(call_sid).update(...)` call was issued, and whether one
of the two `except` handlers (lines 74–77) logged an error. -/
structure TransferResult where
  updateAttempted : Bool
  errorLogged : Bool
deriving DecidableEq

/-- Model of `initiate_transfer`: the remote call's outcome is an oracle
`api` from the `call_sid` argument to `Except PyExc Unit`. The `Except` in
the return type records whether an exception escapes the function; the two
`except` clauses catch `TwilioRestException` and `Exception`, so every arm
returns `.ok`. -/
def initiate_transfer (api : Option String → Except PyExc Unit)
    (call_sid : Option String) (reason : String) : Except PyExc TransferResult :=
  match api call_sid with
  | .ok _ => .ok ⟨true, false⟩
  | .error (.twilioRest _) => .ok ⟨true, true⟩
  | .error (.otherExc _) => .ok ⟨true, true⟩

/-- Recogniser for transfer actions in an outbound trace. -/
def isTransferAction : OutEvent → Bool
  | .transferCall _ _ => true
  | _ => false

/-- The audio branch never produces a transfer action. -/
theorem filter_isTransferAction_audioActions (ss : Option String) (r : GeminiResponse) :
    (audioActions ss r).filter isTransferAction = [] := by
  cases haud : r.audio <;> simp [audioActions, haud, isTransferAction]

/-! ## Claims -/

/-- C1, counterexample: the claim says an `AudioChunkEvent` processed before
any `start` event is dropped or buffered, never forwarded with
`stream_sid = None`. In the code the audio branch has no guard on
`stream_sid`: with `stream_sid` still `None`, one audio response produces a
`media` message whose `streamSid` field is `None`. -/
theorem C1_counterexample :
    OutEvent.sendMedia none (b64encode [0]) ∈
      send_to_twilio none none [{ audio := some [0], tool_call := none }] := by
  decide

/-- C1, amended: an `AudioChunkEvent` processed by the outbound pump before a
`start` event has captured the stream identifier is neither dropped nor
buffered — it is encoded and forwarded to the telephony leg in a `media`
message whose `streamSid` field is `None`. -/
theorem C1_chunk_forwarded_with_null_streamSid :
    ∀ (cs : Option String) (bytes : List Nat) (rest : List GeminiResponse),
      send_to_twilio cs none ({ audio := some bytes, tool_call := none } :: rest) =
        OutEvent.sendMedia none (b64encode bytes) :: send_to_twilio cs none rest := by
  intro cs bytes rest
  simp [send_to_twilio, findTransferCall, audioActions]

/-- C2, counterexample: the claim says a malformed inbound frame is dropped
and the pump continues with subsequent messages. In the code the
`try`/`except` wraps the whole `async for` loop, so the exception raised on
the malformed frame ends the loop: a valid `media` frame queued right after
it is never forwarded. -/
theorem C2_counterexample :
    (receive_from_twilio none none [.malformed, .media (b64encode [65])]).sends = [] ∧
    (receive_from_twilio none none [.malformed, .media (b64encode [65])]).errorLogged = true := by
  decide

/-- C2, amended: a malformed inbound frame is logged and terminates the
inbound pump — no subsequent frame is consumed; the exception does not
propagate beyond the pump (the pump function returns normally), so the
session is not crashed by it. -/
theorem C2_malformed_frame_ends_inbound_pump :
    ∀ (cs ss : Option String) (rest : List InMsg),
      receive_from_twilio cs ss (.malformed :: rest) = ⟨[], cs, ss, true⟩ := by
  intro cs ss rest
  rfl

/-- C3: once the outbound pump handles a `transfer_to_human` invocation it
returns at once, so responses after the transferring one contribute nothing
to the trace: the run on `pre ++ r :: post` equals the run on `pre ++ [r]`
whenever `pre` is transfer-free and `r` carries the transfer. -/
theorem C3_outbound_pump_stops_after_transfer :
    ∀ (cs ss : Option String) (pre : List GeminiResponse) (r : GeminiResponse)
      (post : List GeminiResponse),
      (∀ x ∈ pre, findTransferCall x.tool_call = none) →
      (findTransferCall r.tool_call).isSome →
      send_to_twilio cs ss (pre ++ r :: post) = send_to_twilio cs ss (pre ++ [r]) := by
  intro cs ss pre r post hpre hr
  induction pre with
  | nil =>
      obtain ⟨fc, hfc⟩ := Option.isSome_iff_exists.mp hr
      simp [send_to_twilio, hfc]
  | cons x xs ih =>
      have hx : findTransferCall x.tool_call = none := hpre x (by simp)
      simp only [List.cons_append, send_to_twilio, hx]
      exact congrArg (fun t => audioActions ss x ++ t) (ih (fun y hy => hpre y (by simp [hy])))

/-- C3 witness at a concrete run: an audio response, then the transfer, then
a trailing audio response that the pump never reaches. -/
theorem C3_witness :
    send_to_twilio (some "CA1") (some "MZ1")
        ([{ audio := some [1], tool_call := none }] ++
          { audio := none,
            tool_call := some [⟨"transfer_to_human", [("reason", "angry customer")]⟩] } ::
          [{ audio := some [2], tool_call := none }]) =
      send_to_twilio (some "CA1") (some "MZ1")
        ([{ audio := some [1], tool_call := none }] ++
          [{ audio := none,
             tool_call := some [⟨"transfer_to_human", [("reason", "angry customer")]⟩] }]) :=
  C3_outbound_pump_stops_after_transfer (some "CA1") (some "MZ1")
    [{ audio := some [1], tool_call := none }]
    { audio := none,
      tool_call := some [⟨"transfer_to_human", [("reason", "angry customer")]⟩] }
    [{ audio := some [2], tool_call := none }] (by decide) (by decide)

/-- C4: the codec round-trips — decoding an encoding recovers the bytes, and
encoding the decoding of a well-formed payload (one in the image of the
encoder) recovers the payload. -/
theorem C4_base64_roundtrip :
    (∀ p : List Nat, (∀ x ∈ p, x < 256) → b64decode (b64encode p) = some p) ∧
    (∀ (s : List Char) (p : List Nat), (∀ x ∈ p, x < 256) → s = b64encode p →
      ∃ q, b64decode s = some q ∧ b64encode q = s) := by
  refine ⟨b64_decode_encode, ?_⟩
  rintro s p hp rfl
  exact ⟨p, b64_decode_encode p hp, rfl⟩

/-- C4 witness at concrete payloads of lengths three and two. -/
theorem C4_witness :
    b64decode (b64encode [72, 101, 121]) = some [72, 101, 121] ∧
    ∃ q, b64decode (b64encode [10, 200]) = some q ∧ b64encode q = b64encode [10, 200] :=
  ⟨C4_base64_roundtrip.1 [72, 101, 121] (by decide),
   C4_base64_roundtrip.2 (b64encode [10, 200]) [10, 200] (by decide) rfl⟩

/-- Running the inbound pump over well-formed media frames alone forwards
all decoded payloads in order, without touching the captured identifiers. -/
theorem receive_media_in_order (ps : List (List Char)) :
    ∀ (ds : List (List Nat)) (cs ss : Option String), decodeAll ps = some ds →
      receive_from_twilio cs ss (ps.map InMsg.media) = ⟨ds, cs, ss, false⟩ := by
  induction ps with
  | nil =>
      intro ds cs ss h
      simp only [decodeAll, Option.some.injEq] at h
      subst h
      rfl
  | cons p ps ih =>
      intro ds cs ss h
      simp only [decodeAll] at h
      cases hp : b64decode p with
      | none => rw [hp] at h; simp at h
      | some b =>
          rw [hp] at h
          cases hps : decodeAll ps with
          | none => rw [hps] at h; simp at h
          | some bs =>
              rw [hps] at h
              simp only [Option.some.injEq] at h
              subst h
              simp [List.map_cons, receive_from_twilio, hp, ih bs cs ss hps]

/-- C5: after a `start` frame, a sequence of well-formed `media` frames is
forwarded to the backend as exactly its base64-decoded payloads, in receipt
order, with nothing dropped, reordered, or batched, and with the identifiers
captured from the `start` frame. -/
theorem C5_inbound_order_preserved :
    ∀ (c s : String) (ps : List (List Char)) (ds : List (List Nat)) (cs ss : Option String),
      decodeAll ps = some ds →
      receive_from_twilio cs ss (.start c s :: ps.map InMsg.media) =
        ⟨ds, some c, some s, false⟩ := by
  intro c s ps ds cs ss h
  simp only [receive_from_twilio]
  exact receive_media_in_order ps ds (some c) (some s) h

/-- C5 witness: two concrete media frames after a `start` frame. -/
theorem C5_witness :
    receive_from_twilio none none
        (.start "CA1" "MZ1" :: ([b64encode [1], b64encode [2, 3]]).map InMsg.media) =
      ⟨[[1], [2, 3]], some "CA1", some "MZ1", false⟩ :=
  C5_inbound_order_preserved "CA1" "MZ1" [b64encode [1], b64encode [2, 3]]
    [[1], [2, 3]] none none (by decide)

/-- C6: when the outbound pump reaches a response carrying a
`transfer_to_human` function call (after transfer-free responses), exactly
one transfer action occurs in the whole trace — with the captured call
identifier and the call's `reason` argument, defaulting to `"user_request"`
when absent — and the telephony connection is closed. -/
theorem C6_exactly_one_transfer :
    ∀ (cs ss : Option String) (pre : List GeminiResponse) (r : GeminiResponse)
      (post : List GeminiResponse) (fc : FunctionCall),
      (∀ x ∈ pre, findTransferCall x.tool_call = none) →
      findTransferCall r.tool_call = some fc →
      (send_to_twilio cs ss (pre ++ r :: post)).filter isTransferAction =
          [OutEvent.transferCall cs (argGet fc.args "reason" "user_request")] ∧
      OutEvent.closeWs ∈ send_to_twilio cs ss (pre ++ r :: post) := by
  intro cs ss pre r post fc hpre hfc
  induction pre with
  | nil =>
      simp [send_to_twilio, hfc, List.filter_append,
        filter_isTransferAction_audioActions, isTransferAction]
  | cons x xs ih =>
      have hx : findTransferCall x.tool_call = none := hpre x (by simp)
      obtain ⟨ih1, ih2⟩ := ih (fun y hy => hpre y (by simp [hy]))
      constructor
      · simp [send_to_twilio, hx, List.filter_append,
          filter_isTransferAction_audioActions, ih1]
      · simp [send_to_twilio, hx]
        exact Or.inr ih2

/-- C6 witness: audio interleaved in the same receive cycle, one transfer
with an absent `reason` argument defaulting to `"user_request"`. -/
theorem C6_witness :
    (send_to_twilio (some "CA1") (some "MZ1")
        ([{ audio := some [1], tool_call := none }] ++
          { audio := some [2], tool_call := some [⟨"transfer_to_human", []⟩] } ::
          [{ audio := some [3], tool_call := none }])).filter isTransferAction =
        [OutEvent.transferCall (some "CA1") "user_request"] ∧
    OutEvent.closeWs ∈
      send_to_twilio (some "CA1") (some "MZ1")
        ([{ audio := some [1], tool_call := none }] ++
          { audio := some [2], tool_call := some [⟨"transfer_to_human", []⟩] } ::
          [{ audio := some [3], tool_call := none }]) :=
  C6_exactly_one_transfer (some "CA1") (some "MZ1")
    [{ audio := some [1], tool_call := none }]
    { audio := some [2], tool_call := some [⟨"transfer_to_human", []⟩] }
    [{ audio := some [3], tool_call := none }]
    ⟨"transfer_to_human", []⟩ (by decide) (by decide)

/-- C7: a response whose tool call carries only unrecognized names is ignored
without any side effect — the trace is exactly the trace of the remaining
responses, so processing continues and the session does not fail. -/
theorem C7_unknown_tool_ignored :
    ∀ (cs ss : Option String) (fcs : List FunctionCall) (rest : List GeminiResponse),
      (∀ c ∈ fcs, c.name ≠ "transfer_to_human") →
      send_to_twilio cs ss ({ audio := none, tool_call := some fcs } :: rest) =
        send_to_twilio cs ss rest := by
  intro cs ss fcs rest h
  have hfind : findTransferCall (some fcs) = none := by
    simp only [findTransferCall, List.find?_eq_none]
    intro c hc
    simpa using h c hc
  simp [send_to_twilio, hfind, audioActions]

/-- C7 witness: a tool call named `escalate_ticket` leaves the trace of the
following audio response unchanged. -/
theorem C7_witness :
    send_to_twilio (some "CA1") (some "MZ1")
        ({ audio := none, tool_call := some [⟨"escalate_ticket", []⟩] } ::
          [{ audio := some [7], tool_call := none }]) =
      send_to_twilio (some "CA1") (some "MZ1") [{ audio := some [7], tool_call := none }] :=
  C7_unknown_tool_ignored (some "CA1") (some "MZ1") [⟨"escalate_ticket", []⟩]
    [{ audio := some [7], tool_call := none }] (by decide)

/-- C8: when the remote call-control update fails with any exception —
`TwilioRestException` or otherwise — `initiate_transfer` catches it, logs it,
and returns normally: no exception escapes the transfer path. -/
theorem C8_transfer_failure_caught :
    ∀ (api : Option String → Except PyExc Unit) (cs : Option String)
      (reason : String) (e : PyExc),
      api cs = .error e →
      initiate_transfer api cs reason = .ok ⟨true, true⟩ := by
  intro api cs reason e h
  cases e <;> simp [initiate_transfer, h]

/-- C8 witness: the update fails as on an already-ended call; the failure is
logged and swallowed. -/
theorem C8_witness :
    initiate_transfer (fun _ => .error (.twilioRest "call not found")) (some "CA1")
        "user_request" = .ok ⟨true, true⟩ :=
  C8_transfer_failure_caught (fun _ => .error (.twilioRest "call not found"))
    (some "CA1") "user_request" (.twilioRest "call not found") rfl

/-- C9: a `transfer_to_human` invocation arriving with no `start` event seen
(`call_sid = None`) is not dropped or deferred — the trace contains a
transfer action with a `None` call identifier — and when the remote call
then fails, `initiate_transfer` swallows the failure, so the session does
not crash. -/
theorem C9_transfer_attempted_without_callSid :
    ∀ (ss : Option String) (api : Option String → Except PyExc Unit)
      (rest : List GeminiResponse) (fcs : List FunctionCall) (fc : FunctionCall) (e : PyExc),
      findTransferCall (some fcs) = some fc →
      api none = .error e →
      OutEvent.transferCall none (argGet fc.args "reason" "user_request") ∈
          send_to_twilio none ss ({ audio := none, tool_call := some fcs } :: rest) ∧
      initiate_transfer api none (argGet fc.args "reason" "user_request") =
          .ok ⟨true, true⟩ := by
  intro ss api rest fcs fc e hfc hapi
  constructor
  · simp [send_to_twilio, hfc, audioActions]
  · cases e <;> simp [initiate_transfer, hapi]

/-- C9 witness: a transfer invocation with `call_sid` still `None` and a
remote call that rejects the `None` identifier. -/
theorem C9_witness :
    OutEvent.transferCall none "user_request" ∈
        send_to_twilio none none
          [{ audio := none, tool_call := some [⟨"transfer_to_human", []⟩] }] ∧
    initiate_transfer (fun _ => .error (.otherExc "call_sid is None")) none
        "user_request" = .ok ⟨true, true⟩ :=
  C9_transfer_attempted_without_callSid none
    (fun _ => .error (.otherExc "call_sid is None")) []
    [⟨"transfer_to_human", []⟩] ⟨"transfer_to_human", []⟩
    (.otherExc "call_sid is None") (by decide) rfl

/-- C10: a response carrying both an audio chunk and a `transfer_to_human`
call produces exactly the trace media-send, transfer, close — the audio is
encoded and sent before the transfer is initiated. -/
theorem C10_audio_precedes_transfer :
    ∀ (cs ss : Option String) (bytes : List Nat) (tc : Option (List FunctionCall))
      (fc : FunctionCall) (rest : List GeminiResponse),
      findTransferCall tc = some fc →
      send_to_twilio cs ss ({ audio := some bytes, tool_call := tc } :: rest) =
        [OutEvent.sendMedia ss (b64encode bytes),
         OutEvent.transferCall cs (argGet fc.args "reason" "user_request"),
         OutEvent.closeWs] := by
  intro cs ss bytes tc fc rest hfc
  simp [send_to_twilio, hfc, audioActions]

/-- C10 witness: one response with audio and the transfer call. -/
theorem C10_witness :
    send_to_twilio (some "CA1") (some "MZ1")
        [{ audio := some [9, 9],
           tool_call := some [⟨"transfer_to_human", [("reason", "frustrated")]⟩] }] =
      [OutEvent.sendMedia (some "MZ1") (b64encode [9, 9]),
       OutEvent.transferCall (some "CA1") "frustrated",
       OutEvent.closeWs] :=
  C10_audio_precedes_transfer (some "CA1") (some "MZ1") [9, 9]
    (some [⟨"transfer_to_human", [("reason", "frustrated")]⟩])
    ⟨"transfer_to_human", [("reason", "frustrated")]⟩ [] (by decide)

end VoiceRelay
